import Mathlib

/-!
Verification of the squeeze-then-breakout screening core: the two pattern
gates (backtest/pattern_filters.py and backtest/pattern_gate.py), the
indicator library (src/features/indicators.py), the candlestick detector
(src/patterns/candlesticks.py), the chart-pattern scorer
(src/patterns/chart_patterns.py) and the volatility filters
(src/filters/volatility.py).

Numbers are modelled by the type PFloat: a rational value, positive or
negative infinity, or NaN, with IEEE-like arithmetic (NaN propagates,
x/0 gives a signed infinity for x nonzero and NaN for 0/0, comparisons
involving NaN are false).  Square roots use ratSqrt, which is exact
whenever numerator and denominator are perfect squares; every concrete
evaluation in this file only takes square roots of such rationals.
A data frame whose columns have been resolved to the open/high/low/close
roles is a list of Bar records (to_numeric coercion turns non-numeric
cells into NaN, so cells are PFloat).
-/

set_option linter.unusedVariables false
set_option maxRecDepth 1000000
set_option maxHeartbeats 4000000

/-!
The library arithmetic on ℚ is not definitionally reducible, so the
embedding computes through small wrappers built on mkRat and Rat.divInt
(which do reduce); each wrapper is proved equal to the corresponding field
operation, so symbolic reasoning still happens over the ordinary ℚ
operations while concrete inputs evaluate by decide.
-/

def qadd (a b : ℚ) : ℚ := mkRat (a.num * b.den + b.num * a.den) (a.den * b.den)

def qsub (a b : ℚ) : ℚ := mkRat (a.num * b.den - b.num * a.den) (a.den * b.den)

def qmul (a b : ℚ) : ℚ := mkRat (a.num * b.num) (a.den * b.den)

def qdiv (a b : ℚ) : ℚ := Rat.divInt (a.num * b.den) (a.den * b.num)

def qneg (a : ℚ) : ℚ := mkRat (-a.num) a.den

def qabs (a : ℚ) : ℚ := if a < 0 then qneg a else a

def qmax (a b : ℚ) : ℚ := if a ≤ b then b else a

def qmin (a b : ℚ) : ℚ := if b ≤ a then b else a

def qofNat (n : Nat) : ℚ := mkRat (Int.ofNat n) 1

/-- Structural integer square root (the library one does not reduce). -/
def isqrtAux (n : Nat) : Nat → Nat
  | 0 => 0
  | k + 1 => if (k + 1) * (k + 1) ≤ n then k + 1 else isqrtAux n k

def isqrt (n : Nat) : Nat := isqrtAux n n

/-- Rational square root, exact when numerator and denominator are perfect
squares (floor-valued otherwise); stands in for the floating sqrt.  Every
concrete evaluation in this file takes square roots of 0 or 1 only. -/
def ratSqrt (q : ℚ) : ℚ := mkRat (Int.ofNat (isqrt q.num.toNat)) (isqrt q.den)

/-- IEEE-style scalar: NaN, signed infinities, or a finite (rational) value. -/
inductive PFloat where
  | nan
  | inf
  | ninf
  | fin (q : ℚ)
deriving DecidableEq

namespace PFloat

def isNan : PFloat → Bool
  | nan => true
  | _ => false

def neg : PFloat → PFloat
  | nan => nan
  | inf => ninf
  | ninf => inf
  | fin q => fin (qneg q)

def add : PFloat → PFloat → PFloat
  | nan, _ => nan
  | _, nan => nan
  | inf, ninf => nan
  | ninf, inf => nan
  | inf, _ => inf
  | _, inf => inf
  | ninf, _ => ninf
  | _, ninf => ninf
  | fin a, fin b => fin (qadd a b)

def sub (a b : PFloat) : PFloat := add a (neg b)

def mul : PFloat → PFloat → PFloat
  | nan, _ => nan
  | _, nan => nan
  | inf, inf => inf
  | inf, ninf => ninf
  | ninf, inf => ninf
  | ninf, ninf => inf
  | inf, fin b => if 0 < b then inf else if b < 0 then ninf else nan
  | fin a, inf => if 0 < a then inf else if a < 0 then ninf else nan
  | ninf, fin b => if 0 < b then ninf else if b < 0 then inf else nan
  | fin a, ninf => if 0 < a then ninf else if a < 0 then inf else nan
  | fin a, fin b => fin (qmul a b)

def div : PFloat → PFloat → PFloat
  | nan, _ => nan
  | _, nan => nan
  | inf, inf => nan
  | inf, ninf => nan
  | ninf, inf => nan
  | ninf, ninf => nan
  | fin _, inf => fin 0
  | fin _, ninf => fin 0
  | inf, fin b => if b < 0 then ninf else inf
  | ninf, fin b => if b < 0 then inf else ninf
  | fin a, fin b =>
      if b = 0 then (if 0 < a then inf else if a < 0 then ninf else nan)
      else fin (qdiv a b)

def abs : PFloat → PFloat
  | nan => nan
  | inf => inf
  | ninf => inf
  | fin q => fin (qabs q)

/-- Comparison a ≤ b, false whenever NaN is involved. -/
def leB : PFloat → PFloat → Bool
  | nan, _ => false
  | _, nan => false
  | ninf, _ => true
  | _, inf => true
  | inf, _ => false
  | _, ninf => false
  | fin a, fin b => decide (a ≤ b)

/-- Comparison a < b, false whenever NaN is involved. -/
def ltB : PFloat → PFloat → Bool
  | nan, _ => false
  | _, nan => false
  | inf, _ => false
  | _, ninf => false
  | ninf, _ => true
  | _, inf => true
  | fin a, fin b => decide (a < b)

def gtB (a b : PFloat) : Bool := ltB b a

def geB (a b : PFloat) : Bool := leB b a

/-- Binary maximum used when folding over windows of non-NaN observations. -/
def maxPF (a b : PFloat) : PFloat := if leB a b then b else a

/-- Binary minimum used when folding over windows of non-NaN observations. -/
def minPF (a b : PFloat) : PFloat := if leB b a then b else a

/-- Series.clip(lo, hi): NaN is kept, infinities are clamped to the bounds. -/
def clipP (lo hi : ℚ) : PFloat → PFloat
  | nan => nan
  | inf => fin hi
  | ninf => fin lo
  | fin q => fin (qmin hi (qmax lo q))

/-- Series.fillna(0). -/
def fillna0 : PFloat → PFloat
  | nan => fin 0
  | v => v

/-- Series.replace(0, np.nan). -/
def replaceZero : PFloat → PFloat
  | fin q => if q = 0 then nan else fin q
  | v => v

def sqrtP : PFloat → PFloat
  | nan => nan
  | inf => inf
  | ninf => nan
  | fin q => if q < 0 then nan else fin (ratSqrt q)

end PFloat

open PFloat

/-- List.range-based tabulation; every derived series is built with it so a
single getter lemma serves all combinators. -/
def tabulate {α : Type} (k : Nat) (g : Nat → α) : List α :=
  (List.range k).map g

/-- Sum of a window of observations (pandas folds left over non-NaN values). -/
def sumP (xs : List PFloat) : PFloat := xs.foldl add (fin 0)

/-- Mean of a window of observations. -/
def meanP (xs : List PFloat) : PFloat :=
  if xs.length = 0 then nan else div (sumP xs) (fin (qofNat xs.length))

/-- Population variance of a window (ddof=0: divide by the count). -/
def popVarP (xs : List PFloat) : PFloat :=
  let m := meanP xs
  meanP (xs.map (fun x => mul (sub x m) (sub x m)))

/-- Population standard deviation of a window (std(ddof=0)). -/
def popStdP (xs : List PFloat) : PFloat := sqrtP (popVarP xs)

/-- Maximum of a window of observations (NaN on an empty window). -/
def maxP : List PFloat → PFloat
  | [] => nan
  | x :: xs => xs.foldl maxPF x

/-- Minimum of a window of observations (NaN on an empty window). -/
def minP : List PFloat → PFloat
  | [] => nan
  | x :: xs => xs.foldl minPF x

def insertP (x : PFloat) : List PFloat → List PFloat
  | [] => [x]
  | y :: ys => if leB x y then x :: y :: ys else y :: insertP x ys

def sortP : List PFloat → List PFloat
  | [] => []
  | x :: xs => insertP x (sortP xs)

/-- Median of a window of observations: middle of the sorted window, or the
mean of the two middle elements for an even count. -/
def medianP (xs : List PFloat) : PFloat :=
  let s := sortP xs
  if s.length = 0 then nan
  else if s.length % 2 = 1 then s.getD (s.length / 2) nan
  else meanP [s.getD (s.length / 2 - 1) nan, s.getD (s.length / 2) nan]

/-- Series.rank(pct=True) evaluated at the last element of the window
(the body of the source helper that is applied over rolling windows):
NaN if the window is empty or its last value is NaN, otherwise the average
rank of the last value among the non-NaN window values divided by their
count (method=average, ascending). -/
def pctRankLast (w : List PFloat) : PFloat :=
  match w.getLast? with
  | none => nan
  | some v =>
    if v.isNan then nan
    else
      let obs := w.filter (fun x => !x.isNan)
      let cLt : Nat := obs.countP (fun x => ltB x v)
      let cEq : Nat := obs.countP (fun x => decide (x = v))
      fin (qdiv (qadd (qofNat cLt) (qdiv (qofNat (cEq + 1)) (qofNat 2)))
        (qofNat obs.length))

/-- Series.rank(pct=True) of the element at one position among the whole
series (used for the backtest gate's band-width percentile). -/
def rankPctAt (xs : List PFloat) (i : Nat) : PFloat :=
  let v := xs.getD i nan
  if v.isNan then nan
  else
    let obs := xs.filter (fun x => !x.isNan)
    let cLt : Nat := obs.countP (fun x => ltB x v)
    let cEq : Nat := obs.countP (fun x => decide (x = v))
    fin (qdiv (qadd (qofNat cLt) (qdiv (qofNat (cEq + 1)) (qofNat 2)))
      (qofNat obs.length))

/-- Trailing window of length n ending at index i (inclusive). -/
def windowSlice (n i : Nat) (xs : List PFloat) : List PFloat :=
  (xs.take (i + 1)).drop (i + 1 - n)

/-- Value at index i of Series.rolling(n, min_periods=m).agg(f): NaN when the
window holds fewer than m non-NaN observations, otherwise f of those
observations. -/
def rollAt (n m : Nat) (f : List PFloat → PFloat) (xs : List PFloat)
    (i : Nat) : PFloat :=
  if ((windowSlice n i xs).filter (fun v => !v.isNan)).length < m then nan
  else f ((windowSlice n i xs).filter (fun v => !v.isNan))

/-- Series.rolling(n, min_periods=m).agg(f) for an aggregation that skips
NaN observations (mean, std, max, min, median). -/
def roll (n m : Nat) (f : List PFloat → PFloat) (xs : List PFloat) :
    List PFloat :=
  tabulate xs.length (rollAt n m f xs)

/-- Value at index i of Series.rolling(n, min_periods=m).apply(f, raw=False):
the function receives the whole window (NaNs included); windows with fewer
than m non-NaN observations are masked to NaN. -/
def rollApplyAt (n m : Nat) (f : List PFloat → PFloat) (xs : List PFloat)
    (i : Nat) : PFloat :=
  if ((windowSlice n i xs).filter (fun v => !v.isNan)).length < m then nan
  else f (windowSlice n i xs)

/-- Series.rolling(n, min_periods=m).apply(f, raw=False). -/
def rollApply (n m : Nat) (f : List PFloat → PFloat) (xs : List PFloat) :
    List PFloat :=
  tabulate xs.length (rollApplyAt n m f xs)

/-- Series.shift(1): drop the last value, prepend NaN (empty stays empty). -/
def shift1 : List PFloat → List PFloat
  | [] => []
  | x :: xs => nan :: (x :: xs).dropLast

/-- Elementwise combination of two aligned series. -/
def ew2 (f : PFloat → PFloat → PFloat) (a b : List PFloat) : List PFloat :=
  tabulate (min a.length b.length) (fun i => f (a.getD i nan) (b.getD i nan))

/-- Elementwise boolean comparison of two aligned series; comparisons with
NaN yield false, so the result is a plain boolean series. -/
def ewB2 (f : PFloat → PFloat → Bool) (a b : List PFloat) : List Bool :=
  tabulate (min a.length b.length) (fun i => f (a.getD i nan) (b.getD i nan))

/-- Elementwise combination of two aligned boolean series. -/
def ewBool2 (f : Bool → Bool → Bool) (a b : List Bool) : List Bool :=
  tabulate (min a.length b.length) (fun i => f (a.getD i false) (b.getD i false))

/-- Row-wise max over a few columns, skipping NaN (concat(...).max(axis=1)):
NaN only when every entry is NaN. -/
def maxSkipNan (xs : List PFloat) : PFloat :=
  match xs.filter (fun v => !v.isNan) with
  | [] => nan
  | y :: ys => ys.foldl maxPF y

/-- Row-wise min over a few columns, skipping NaN. -/
def minSkipNan (xs : List PFloat) : PFloat :=
  match xs.filter (fun v => !v.isNan) with
  | [] => nan
  | y :: ys => ys.foldl minPF y

/-- Series.dropna. -/
def dropnaP (xs : List PFloat) : List PFloat :=
  xs.filter (fun v => !v.isNan)

/-- One row of a bar table after column resolution. -/
structure Bar where
  o : PFloat
  h : PFloat
  l : PFloat
  c : PFloat
deriving DecidableEq

/-- A bar row with all four fields finite, for stating claims about
fully-defined data. -/
structure QBar where
  o : ℚ
  h : ℚ
  l : ℚ
  c : ℚ

def QBar.toBar (b : QBar) : Bar :=
  ⟨fin b.o, fin b.h, fin b.l, fin b.c⟩

def finBars (qs : List QBar) : List Bar := qs.map QBar.toBar

def opensOf (bars : List Bar) : List PFloat := bars.map Bar.o

def highsOf (bars : List Bar) : List PFloat := bars.map Bar.h

def lowsOf (bars : List Bar) : List PFloat := bars.map Bar.l

def closesOf (bars : List Bar) : List PFloat := bars.map Bar.c

namespace PatternFilters

/-- Model of _last_valid: last non-NaN value of a series, None when there is none
(the try/except around dropna().iloc[-1]); infinities pass through. -/
def lastValid (xs : List PFloat) : Option PFloat :=
  (dropnaP xs).getLast?

/-- bool(series.dropna().iloc[-1]) if len(series.dropna()) else False, for a
boolean series (whose dropna is itself, comparisons never yield NaN). -/
def boolLast (bs : List Bool) : Bool :=
  (bs.getLast?).getD false

/-- Bollinger band width series of pattern_gate: rolling mean and rolling
population std over bb_n closes (strict min_periods), width =
(upper - lower) / mid with zero mids replaced by NaN. -/
def bbWidthSeries (closes : List PFloat) (bb_n : Nat) (bb_k : ℚ) :
    List PFloat :=
  let mid := roll bb_n bb_n meanP closes
  let std := roll bb_n bb_n popStdP closes
  let upper := ew2 add mid (std.map (mul (fin bb_k)))
  let lower := ew2 sub mid (std.map (mul (fin bb_k)))
  ew2 div (ew2 sub upper lower) (mid.map replaceZero)

/-- Rolling percentile rank of the band width over pct_window bars with
min_periods = min(bb_n*3, pct_window). -/
def bbWidthPctileSeries (closes : List PFloat) (bb_n : Nat) (bb_k : ℚ)
    (pct_window : Nat) : List PFloat :=
  rollApply pct_window (min (bb_n * 3) pct_window) pctRankLast
    (bbWidthSeries closes bb_n bb_k)

/-- True range: row-wise max (skipping NaN) of |high-low|, |high-prev close|,
|low-prev close|. -/
def trueRangeS (highs lows closes : List PFloat) : List PFloat :=
  let pc := shift1 closes
  tabulate closes.length (fun i =>
    maxSkipNan [PFloat.abs (sub (highs.getD i nan) (lows.getD i nan)),
                PFloat.abs (sub (highs.getD i nan) (pc.getD i nan)),
                PFloat.abs (sub (lows.getD i nan) (pc.getD i nan))])

/-- ATR: simple rolling mean of the true range with strict min_periods. -/
def atrSeries (highs lows closes : List PFloat) (atr_n : Nat) : List PFloat :=
  roll atr_n atr_n meanP (trueRangeS highs lows closes)

/-- Rolling percentile rank of the ATR over pct_window bars with
min_periods = min(atr_n*3, pct_window). -/
def atrPctileSeries (highs lows closes : List PFloat) (atr_n : Nat)
    (pct_window : Nat) : List PFloat :=
  rollApply pct_window (min (atr_n * 3) pct_window) pctRankLast
    (atrSeries highs lows closes atr_n)

/-- high.shift(1).rolling(n, min_periods=n).max(). -/
def hhSeries (n : Nat) (highs : List PFloat) : List PFloat :=
  roll n n maxP (shift1 highs)

/-- close > high.shift(1).rolling(n, min_periods=n).max(); comparisons with
NaN are false, so this is a plain boolean series. -/
def breakoutSeries (n : Nat) (highs closes : List PFloat) : List Bool :=
  ewB2 gtB closes (hhSeries n highs)

/-- The keys of the dict returned by the main branch of pattern_gate. -/
structure GateFull where
  ok : Bool
  is_squeeze : Bool
  bb_width : Option PFloat
  bb_width_pctile : Option PFloat
  atr : Option PFloat
  atr_pctile : Option PFloat
  breakout_hh20 : Bool
  breakout_hh50 : Bool
  candidate_ok : Bool
  rows : Nat
  has_volume : Bool
deriving DecidableEq

/-- The two dict shapes pattern_gate can return: the early insufficient-rows
record (keys ok, reason, rows) or the full record. -/
inductive PFGateOut where
  | insufficient (ok : Bool) (reason : String) (rows : Nat)
  | full (r : GateFull)
deriving DecidableEq

/-- is_squeeze: band-width percentile (last defined value) at or below 0.10,
or ATR percentile (last defined value) at or below 0.20. -/
def isSqueezeOf (bars : List Bar) (bb_n : Nat) (bb_k : ℚ) (atr_n : Nat)
    (pct_window : Nat) : Bool :=
  (match lastValid (bbWidthPctileSeries (closesOf bars) bb_n bb_k pct_window) with
   | some v => leB v (fin (mkRat 1 10))
   | none => false) ||
  (match lastValid (atrPctileSeries (highsOf bars) (lowsOf bars)
      (closesOf bars) atr_n pct_window) with
   | some v => leB v (fin (mkRat 1 5))
   | none => false)

/-- Last value of the 20-bar breakout flag series. -/
def bo20Of (bars : List Bar) : Bool :=
  boolLast (breakoutSeries 20 (highsOf bars) (closesOf bars))

/-- Last value of the 50-bar breakout flag series. -/
def bo50Of (bars : List Bar) : Bool :=
  boolLast (breakoutSeries 50 (highsOf bars) (closesOf bars))

/-- The full record built by the main branch of pattern_gate. -/
def gateFull (bars : List Bar) (hasVolume : Bool) (bb_n : Nat) (bb_k : ℚ)
    (atr_n : Nat) (pct_window : Nat) : GateFull :=
  { ok := true
    is_squeeze := isSqueezeOf bars bb_n bb_k atr_n pct_window
    bb_width := lastValid (bbWidthSeries (closesOf bars) bb_n bb_k)
    bb_width_pctile :=
      lastValid (bbWidthPctileSeries (closesOf bars) bb_n bb_k pct_window)
    atr := lastValid (atrSeries (highsOf bars) (lowsOf bars) (closesOf bars)
      atr_n)
    atr_pctile := lastValid (atrPctileSeries (highsOf bars) (lowsOf bars)
      (closesOf bars) atr_n pct_window)
    breakout_hh20 := bo20Of bars
    breakout_hh50 := bo50Of bars
    candidate_ok := isSqueezeOf bars bb_n bb_k atr_n pct_window &&
      (bo20Of bars || bo50Of bars)
    rows := bars.length
    has_volume := hasVolume }

/-- backtest.pattern_filters.pattern_gate on a column-resolved bar table.
hasVolume records whether the optional volume column resolved.  The result
is in Except so that a translation of code that can raise has somewhere to
put the exception; this function never produces the error case. -/
def pattern_gate (bars : List Bar) (hasVolume : Bool) (bb_n : Nat)
    (bb_k : ℚ) (atr_n : Nat) (pct_window : Nat) :
    Except String PFGateOut :=
  if bars.length < max bb_n atr_n + 2 then
    .ok (.insufficient false "insufficient_rows" bars.length)
  else
    .ok (.full (gateFull bars hasVolume bb_n bb_k atr_n pct_window))

/-- Projection used to state facts about the full-record result. -/
def outCandidateOk : Except String PFGateOut → Option Bool
  | .ok (.full g) => some g.candidate_ok
  | _ => none

/-- Projection used to state facts about the full-record result. -/
def outIsSqueeze : Except String PFGateOut → Option Bool
  | .ok (.full g) => some g.is_squeeze
  | _ => none

end PatternFilters

namespace BacktestGate

/-- Model of x.loc[:last].tail(160). -/
def tail160 (bars : List Bar) : List Bar := bars.drop (bars.length - 160)

/-- Model of _true_range: same row-wise max of the three ranges as pattern_filters. -/
def true_range (x : List Bar) : List PFloat :=
  PatternFilters.trueRangeS (highsOf x) (lowsOf x) (closesOf x)

/-- Model of _atr: rolling mean of the true range with strict min_periods. -/
def atrB (x : List Bar) (n : Nat) : List PFloat :=
  roll n n meanP (true_range x)

/-- Model of _bb_width: (upper - lower) / m with NO zero-replacement on the rolling
mean m (a zero mean divides through and can give an infinity). -/
def bb_widthB (x : List Bar) (n : Nat) (k : ℚ) : List PFloat :=
  let closes := closesOf x
  let m := roll n n meanP closes
  let s := roll n n popStdP closes
  let upper := ew2 add m (s.map (mul (fin k)))
  let lower := ew2 sub m (s.map (mul (fin k)))
  ew2 div (ew2 sub upper lower) m

/-- bbw.rank(pct=True) * 100. -/
def bbwPct (x : List Bar) : List PFloat :=
  let bbw := bb_widthB x 20 2
  (tabulate bbw.length (rankPctAt bbw)).map (mul (fin 100))

/-- high.rolling(HH_N).max() - low.rolling(HH_N).min() (default min_periods
equals the window). -/
def rngN (x : List Bar) (hh_n : Nat) : List PFloat :=
  ew2 sub (roll hh_n hh_n maxP (highsOf x)) (roll hh_n hh_n minP (lowsOf x))

def tight_range (x : List Bar) (hh_n : Nat) (tightrange_pct : ℚ) : List Bool :=
  (ew2 div (rngN x hh_n) (closesOf x)).map (fun v => leB v (fin tightrange_pct))

def low_bbw (x : List Bar) (bbw_pctl : ℚ) : List Bool :=
  (bbwPct x).map (fun v => leB v (fin bbw_pctl))

def atr_compress (x : List Bar) (atr_ratio_max : ℚ) : List Bool :=
  (ew2 div (atrB x 14) ((atrB x 100).map replaceZero)).map
    (fun v => leB v (fin atr_ratio_max))

def consolidating (x : List Bar) (hh_n : Nat) (bbw_pctl tightrange_pct
    atr_ratio_max : ℚ) : List Bool :=
  ewBool2 or
    (ewBool2 and (tight_range x hh_n tightrange_pct) (low_bbw x bbw_pctl))
    (ewBool2 and (low_bbw x bbw_pctl) (atr_compress x atr_ratio_max))

/-- Breakout series x.close > x.close.rolling(HH_N).max().shift(1): the flag of
this gate compares close with the rolling max of CLOSE, shifted by one. -/
def breakout (x : List Bar) (hh_n : Nat) : List Bool :=
  ewB2 gtB (closesOf x) (shift1 (roll hh_n hh_n maxP (closesOf x)))

/-- Model of _bull_engulfing: previous bar bearish, current bullish, current close at
or above the max of the previous open/close, current open at or below their
min (row-wise max/min skip NaN; bar 0 compares against NaN and is false). -/
def bull_engulfing (x : List Bar) : List Bool :=
  tabulate x.length (fun i =>
    let cur := x.getD i ⟨nan, nan, nan, nan⟩
    let p := if i = 0 then (⟨nan, nan, nan, nan⟩ : Bar)
             else x.getD (i - 1) ⟨nan, nan, nan, nan⟩
    ltB p.c p.o && gtB cur.c cur.o &&
    geB cur.c (maxSkipNan [p.o, p.c]) &&
    leB cur.o (minSkipNan [p.o, p.c]))

/-- One row of _hammer: body/range at most body_ratio, lower shadow at least
lower_shadow_ratio times the body, upper shadow at most the body; zero
ranges and zero bodies are replaced by NaN so the ratio comparisons fail. -/
def hammerRow (body_ratio lower_shadow_ratio : ℚ) (b : Bar) : Bool :=
  let body := PFloat.abs (sub b.c b.o)
  let rng := replaceZero (sub b.h b.l)
  let lowsh := PFloat.abs (sub (minSkipNan [b.o, b.c]) b.l)
  let upsh := PFloat.abs (sub b.h (maxSkipNan [b.o, b.c]))
  let small_body := leB (div body rng) (fin body_ratio)
  let long_lower := geB (div lowsh (replaceZero body)) (fin lower_shadow_ratio)
  let small_upper := leB upsh body
  small_body && long_lower && small_upper

/-- Model of _hammer over the table with the default ratios 0.35 and 2.0. -/
def hammer (x : List Bar) : List Bool :=
  x.map (hammerRow (mkRat 35 100) 2)

def bullish (x : List Bar) : List Bool :=
  ewBool2 or (bull_engulfing x) (hammer x)

/-- The signals part of the dict this gate is written to return. -/
structure BtResult where
  ok : Bool
  consolidating : Bool
  breakout : Bool
  bullish : Bool
deriving DecidableEq

/-- backtest.pattern_gate.pattern_gate with now_idx at the last row.  The
environment tunables GATE_BBW_PCTL, GATE_TIGHTRANGE_PCT, GATE_ATR_RATIO and
GATE_HH_N are passed as arguments (defaults 15, 0.06, 0.65, 20).  On an
empty table x.index[-1] raises IndexError; on any other input every
intermediate series is computed and then the final decision line reads the
name GATE_FORCE_FALSE, which is defined nowhere in the module, so the call
raises NameError before reaching its return statement. -/
def pattern_gate (bars : List Bar) (bbw_pctl tightrange_pct atr_ratio_max : ℚ)
    (hh_n : Nat) : Except String BtResult :=
  match bars with
  | [] => .error "IndexError: index -1 is out of bounds for axis 0 with size 0"
  | _ :: _ =>
    let x := tail160 bars
    let atr14 := atrB x 14
    let atr100 := atrB x 100
    let bbw := bb_widthB x 20 2
    let bbw_pct := bbwPct x
    let cons := consolidating x hh_n bbw_pctl tightrange_pct atr_ratio_max
    let bo := breakout x hh_n
    let bl := bullish x
    .error "NameError: name GATE_FORCE_FALSE is not defined"

end BacktestGate

namespace Indicators

/-- sma: rolling mean with the relaxed min_periods max(1, n // 2). -/
def sma (series : List PFloat) (n : Nat) : List PFloat :=
  roll n (max 1 (n / 2)) meanP series

/-- atr: rolling mean of the true range with strict min_periods. -/
def atr (bars : List Bar) (n : Nat) : List PFloat :=
  roll n n meanP
    (PatternFilters.trueRangeS (highsOf bars) (lowsOf bars) (closesOf bars))

/-- bb_width: ((ma + k std) - (ma - k std)) / ma with rolling population
std, strict min_periods, and NO zero-guard on the denominator ma. -/
def bb_width (series : List PFloat) (n : Nat) (num_std : ℚ) : List PFloat :=
  let ma := roll n n meanP series
  let std := roll n n popStdP series
  let upper := ew2 add ma (std.map (mul (fin num_std)))
  let lower := ew2 sub ma (std.map (mul (fin num_std)))
  ew2 div (ew2 sub upper lower) ma

end Indicators

namespace Candlesticks

def noBar : Bar := ⟨nan, nan, nan, nan⟩

/-- Bullish engulfing at bar i (i ≥ 1): current bullish, previous bearish,
current close at or above previous open, current open at or below previous
close. -/
def engulfAt (bars : List Bar) (i : Nat) : Bool :=
  let cur := bars.getD i noBar
  let prev := bars.getD (i - 1) noBar
  gtB cur.c cur.o && ltB prev.c prev.o && geB cur.c prev.o && leB cur.o prev.c

/-- Hammer at bar i: lower shadow at least twice the body and the current
bar bullish. -/
def hammerAt (bars : List Bar) (i : Nat) : Bool :=
  let cur := bars.getD i noBar
  let body := PFloat.abs (sub cur.c cur.o)
  let lower_shadow := sub (minSkipNan [cur.o, cur.c]) cur.l
  geB lower_shadow (mul (fin 2) body) && gtB cur.c cur.o

/-- Marubozu at bar i: open within 10 percent of the range from the low,
close within 10 percent from the high, bar bullish; a zero range is
replaced by 1 as in the source (NaN ranges stay NaN, Python NaN != 0). -/
def maruAt (bars : List Bar) (i : Nat) : Bool :=
  let cur := bars.getD i noBar
  let candle_range :=
    if sub cur.h cur.l = fin 0 then fin 1 else sub cur.h cur.l
  leB (PFloat.abs (sub cur.o cur.l)) (mul (fin (mkRat 1 10)) candle_range) &&
  leB (PFloat.abs (sub cur.c cur.h)) (mul (fin (mkRat 1 10)) candle_range) &&
  gtB cur.c cur.o

/-- Morning star at bar i, only evaluated for i ≥ 2: bar i-2 bearish, bar
i-1 an indecision bar with body at most half of that of bar i-2, bar i
bullish and closing at or above the open of bar i-2. -/
def morningAt (bars : List Bar) (i : Nat) : Bool :=
  if 2 ≤ i then
    let cur := bars.getD i noBar
    let b1 := bars.getD (i - 1) noBar
    let b2 := bars.getD (i - 2) noBar
    let prev_body := PFloat.abs (sub b2.c b2.o)
    let indecision_body := PFloat.abs (sub b1.c b1.o)
    ltB b2.c b2.o && leB indecision_body (mul (fin (mkRat 1 2)) prev_body) &&
    gtB cur.c cur.o && geB cur.c b2.o
  else false

/-- The loop body for bar i ≥ 1. -/
def bullishBody (bars : List Bar) (i : Nat) : Bool :=
  engulfAt bars i || hammerAt bars i || maruAt bars i || morningAt bars i

/-- bullish_on_bar: one boolean per bar; bar 0 (no history) is always
false, later bars are the disjunction of the four sub-patterns. -/
def bullish_on_bar (bars : List Bar) : List Bool :=
  tabulate bars.length (fun i => if i = 0 then false else bullishBody bars i)

end Candlesticks

namespace ChartPatterns

/-- Tightness ranking component of pattern_score: one minus the clipped
position of the band width within its rolling 100-bar min/max range. -/
def tight_score (bars : List Bar) : List PFloat :=
  let close := closesOf bars
  let width := Indicators.bb_width close 20 2
  let roll_min := roll 100 50 minP width
  let roll_max := roll 100 50 maxP width
  let pct_rank :=
    (ew2 div (ew2 sub width roll_min) (ew2 sub roll_max roll_min)).map
      (clipP 0 1)
  pct_rank.map (fun v => sub (fin 1) v)

/-- ATR compression component: float(ATR at or below its rolling median)
(a comparison with NaN is False, hence 0.0). -/
def atr_score (bars : List Bar) : List PFloat :=
  let atr_series := Indicators.atr bars 14
  let atr_median := roll 20 (max 5 (20 / 2)) medianP atr_series
  (ewB2 leB atr_series atr_median).map (fun b => if b then fin 1 else fin 0)

/-- Squeeze component: distance of close from its moving average normalized
by the (zero-replaced) daily range, mapped through (1 - band/0.2).clip(0,1). -/
def band_score (bars : List Bar) : List PFloat :=
  let close := closesOf bars
  let ma := Indicators.sma close 20
  let rng := (ew2 sub (highsOf bars) (lowsOf bars)).map replaceZero
  let band := ew2 div ((ew2 sub close ma).map PFloat.abs) rng
  band.map (fun v => clipP 0 1 (sub (fin 1) (div v (fin (mkRat 1 5)))))

/-- pattern_score: 0.5 tight + 0.3 atr + 0.2 band, then fillna(0).clip(0,1). -/
def pattern_score (bars : List Bar) : List PFloat :=
  let score :=
    ew2 add
      (ew2 add ((tight_score bars).map (mul (fin (mkRat 1 2))))
        ((atr_score bars).map (mul (fin (mkRat 3 10)))))
      ((band_score bars).map (mul (fin (mkRat 1 5))))
  score.map (fun v => clipP 0 1 (fillna0 v))

end ChartPatterns

namespace Volatility

/-- beta_filter: missing (None) or NaN beta passes; otherwise require
beta_min <= beta <= beta_max (a Python chained float comparison). -/
def beta_filter (beta : Option PFloat) (beta_min beta_max : ℚ) : Bool :=
  match beta with
  | none => true
  | some v =>
    if v.isNan then true else leB (fin beta_min) v && leB v (fin beta_max)

/-- delta_filter: missing (None) or NaN delta passes; otherwise require
delta >= delta_min. -/
def delta_filter (delta : Option PFloat) (delta_min : ℚ) : Bool :=
  match delta with
  | none => true
  | some v => if v.isNan then true else geB v (fin delta_min)

end Volatility

def highsQ (qs : List QBar) : List ℚ := qs.map QBar.h

def closesQ (qs : List QBar) : List ℚ := qs.map QBar.c

/-- Maximum of a rational list (0 on the empty list, which is never hit). -/
def qmaxL : List ℚ → ℚ
  | [] => 0
  | q :: qs => qs.foldl max q

/-- Modelled from the spec: the breakout flag at bar i is true iff close i
is strictly greater than the maximum of high over the N bars immediately
before i (the current bar excluded), and false when fewer than N prior
bars exist.  Used to compare the two gate implementations against the
spec sentence. -/
def specBreakout (highs closes : List ℚ) (N i : Nat) : Bool :=
  if N ≤ i then
    (if (highs.take i).drop (i - N) = [] then false
     else decide (qmaxL ((highs.take i).drop (i - N)) < closes.getD i 0))
  else false

/-- One flat bar. -/
def dataOneBar : List QBar := [⟨100, 100, 100, 100⟩]

/-- Three flat bars (fewer than the 22-row minimum of the filters gate). -/
def dataShort3 : List QBar := List.replicate 3 ⟨1000, 1010, 990, 1000⟩

/-- Twenty-two flat bars (exactly the 22-row minimum). -/
def dataFlat22 : List QBar := List.replicate 22 ⟨1000, 1010, 990, 1000⟩

/-- Seventy flat bars: constant closes make the band width constant, so its
rolling min/max coincide and the tightness rank divides zero by zero. -/
def dataConstant70 : List QBar := List.replicate 70 ⟨1000, 1010, 990, 1000⟩

/-- Twenty wide-range bars whose highs (2000) sit far above the closes
(1000), then a bar closing at 1010: above every prior close, below every
prior high. -/
def dataHighAboveClose : List QBar :=
  List.replicate 20 ⟨1000, 2000, 900, 1000⟩ ++ [⟨1000, 1015, 1000, 1010⟩]

/-- Sixty bars: 39 wide-range bars (true range 100), then 20 quiet ascending
bars (true range 1, closes 1001..1020), then a bearish bar closing at 1021,
above the prior 20-bar high of 1020.  The ATR percentile of the last bar is
8/47 (a squeeze), the HH20 breakout fires, and no bullish candle fires on
the last bar. -/
def dataSqueezeBreakout : List QBar :=
  List.replicate 39 ⟨1000, 1050, 950, 1000⟩ ++
  (List.range 20).map (fun j =>
    ⟨mkRat (1000 + (j : Int)) 1, mkRat (1001 + (j : Int)) 1,
     mkRat (1000 + (j : Int)) 1, mkRat (1001 + (j : Int)) 1⟩) ++
  [⟨1023, 1023, 1021, 1021⟩]

/-- dataSqueezeBreakout followed by a bar whose cells are all missing: the
ATR percentile is NaN at the evaluation bar, but the last earlier defined
percentile (8/47) still drives the squeeze decision. -/
def dataNanTail : List Bar :=
  finBars dataSqueezeBreakout ++ [⟨nan, nan, nan, nan⟩]

/-- Three small bars for instantiating universally quantified theorems. -/
def dataDemo3 : List QBar := [⟨1, 2, 0, 1⟩, ⟨1, 3, 1, 2⟩, ⟨2, 4, 2, 3⟩]

/-! Helper lemmas. -/

theorem tabulate_length {α : Type} (k : Nat) (g : Nat → α) :
    (tabulate k g).length = k := by
  simp [tabulate]

theorem tabulate_getElem? {α : Type} (k : Nat) (g : Nat → α) (i : Nat)
    (h : i < k) : (tabulate k g)[i]? = some (g i) := by
  simp [tabulate, List.getElem?_map, List.getElem?_range, h]

theorem tabulate_getD {α : Type} (k : Nat) (g : Nat → α) (i : Nat)
    (d : α) (h : i < k) : (tabulate k g).getD i d = g i := by
  simp [List.getD_eq_getElem?_getD, tabulate_getElem? k g i h]

theorem qadd_eq (a b : ℚ) : qadd a b = a + b := by
  have ha : ((a.den : ℚ)) ≠ 0 := by exact_mod_cast a.den_nz
  have hb : ((b.den : ℚ)) ≠ 0 := by exact_mod_cast b.den_nz
  rw [qadd, Rat.mkRat_eq_div]
  conv_rhs => rw [← Rat.num_div_den a, ← Rat.num_div_den b]
  rw [div_add_div _ _ ha hb]
  push_cast
  ring_nf

theorem qsub_eq (a b : ℚ) : qsub a b = a - b := by
  have ha : ((a.den : ℚ)) ≠ 0 := by exact_mod_cast a.den_nz
  have hb : ((b.den : ℚ)) ≠ 0 := by exact_mod_cast b.den_nz
  rw [qsub, Rat.mkRat_eq_div]
  conv_rhs => rw [← Rat.num_div_den a, ← Rat.num_div_den b]
  rw [div_sub_div _ _ ha hb]
  push_cast
  ring_nf

theorem qmul_eq (a b : ℚ) : qmul a b = a * b := by
  have ha : ((a.den : ℚ)) ≠ 0 := by exact_mod_cast a.den_nz
  have hb : ((b.den : ℚ)) ≠ 0 := by exact_mod_cast b.den_nz
  rw [qmul, Rat.mkRat_eq_div]
  conv_rhs => rw [← Rat.num_div_den a, ← Rat.num_div_den b]
  rw [div_mul_div_comm]
  push_cast
  ring_nf

theorem qdiv_eq (a b : ℚ) : qdiv a b = a / b := by
  by_cases hb0 : b = 0
  · subst hb0
    simp [qdiv, Rat.divInt_eq_div]
  have ha : ((a.den : ℚ)) ≠ 0 := by exact_mod_cast a.den_nz
  have hb : ((b.den : ℚ)) ≠ 0 := by exact_mod_cast b.den_nz
  have hbn : ((b.num : ℚ)) ≠ 0 := by exact_mod_cast Rat.num_ne_zero.mpr hb0
  rw [qdiv, Rat.divInt_eq_div]
  conv_rhs => rw [← Rat.num_div_den a, ← Rat.num_div_den b]
  push_cast
  field_simp

theorem qneg_eq (a : ℚ) : qneg a = -a := by
  rw [qneg, Rat.mkRat_eq_div]
  conv_rhs => rw [← Rat.num_div_den a]
  push_cast
  ring_nf

theorem qabs_eq (a : ℚ) : qabs a = |a| := by
  rw [qabs]
  by_cases h : a < 0
  · rw [if_pos h, qneg_eq, abs_of_neg h]
  · rw [if_neg h, abs_of_nonneg (not_lt.mp h)]

theorem qmax_eq (a b : ℚ) : qmax a b = max a b := by
  rw [qmax, max_def]

theorem qmin_eq (a b : ℚ) : qmin a b = min a b := by
  rw [qmin, min_def]
  by_cases hab : a ≤ b
  · by_cases hba : b ≤ a
    · simp [hab, hba, le_antisymm hab hba]
    · simp [hab, hba]
  · have : b ≤ a := le_of_not_le hab
    simp [hab, this]

theorem qofNat_eq (n : Nat) : qofNat n = (n : ℚ) := by
  rw [qofNat, Rat.mkRat_eq_div]
  simp

theorem getD_of_length_le {α : Type} (l : List α) (i : Nat) (d : α)
    (h : l.length ≤ i) : l.getD i d = d := by
  simp [List.getD_eq_getElem?_getD, List.getElem?_eq_none h]

theorem getD_map (f : PFloat → PFloat) (l : List PFloat) (i : Nat)
    (h : i < l.length) : (l.map f).getD i nan = f (l.getD i nan) := by
  simp [List.getD_eq_getElem?_getD, List.getElem?_map,
    List.getElem?_eq_getElem h]

theorem ew2_length (f : PFloat → PFloat → PFloat) (a b : List PFloat) :
    (ew2 f a b).length = min a.length b.length :=
  tabulate_length _ _

theorem ew2_getD (f : PFloat → PFloat → PFloat) (a b : List PFloat) (i : Nat)
    (h : i < min a.length b.length) :
    (ew2 f a b).getD i nan = f (a.getD i nan) (b.getD i nan) :=
  tabulate_getD _ _ _ _ h

theorem ewB2_length (f : PFloat → PFloat → Bool) (a b : List PFloat) :
    (ewB2 f a b).length = min a.length b.length :=
  tabulate_length _ _

theorem ewB2_getD (f : PFloat → PFloat → Bool) (a b : List PFloat) (i : Nat)
    (d : Bool) (h : i < min a.length b.length) :
    (ewB2 f a b).getD i d = f (a.getD i nan) (b.getD i nan) :=
  tabulate_getD _ _ _ _ h

theorem roll_length (n m : Nat) (f : List PFloat → PFloat) (xs : List PFloat) :
    (roll n m f xs).length = xs.length :=
  tabulate_length _ _

theorem roll_getD (n m : Nat) (f : List PFloat → PFloat) (xs : List PFloat)
    (i : Nat) (h : i < xs.length) :
    (roll n m f xs).getD i nan = rollAt n m f xs i :=
  tabulate_getD _ _ _ _ h

theorem rollApply_length (n m : Nat) (f : List PFloat → PFloat)
    (xs : List PFloat) : (rollApply n m f xs).length = xs.length :=
  tabulate_length _ _

theorem shift1_length (xs : List PFloat) : (shift1 xs).length = xs.length := by
  cases xs with
  | nil => rfl
  | cons x t => simp [shift1]

theorem windowSlice_length_le (n i : Nat) (xs : List PFloat) :
    (windowSlice n i xs).length ≤ i + 1 := by
  simp only [windowSlice, List.length_drop, List.length_take]
  omega

theorem rollAt_warmup (n m : Nat) (f : List PFloat → PFloat) (xs : List PFloat)
    (i : Nat) (h : i + 1 < m) : rollAt n m f xs i = nan := by
  unfold rollAt
  have hle : ((windowSlice n i xs).filter (fun v => !v.isNan)).length < m :=
    lt_of_le_of_lt
      (le_trans ((windowSlice n i xs).length_filter_le _)
        (windowSlice_length_le n i xs)) h
  rw [if_pos hle]

theorem div_nan_right (a : PFloat) : div a nan = nan := by
  cases a <;> rfl

theorem nan_div (b : PFloat) : div nan b = nan := by
  cases b <;> rfl

theorem add_nan_right (a : PFloat) : add a nan = nan := by
  cases a <;> rfl

theorem sub_nan_right (a : PFloat) : sub a nan = nan := by
  cases a <;> rfl

theorem mul_nan_right (a : PFloat) : mul a nan = nan := by
  cases a <;> rfl

theorem ltB_nan_right (a : PFloat) : ltB a nan = false := by
  cases a <;> rfl

theorem ltB_nan_left (a : PFloat) : ltB nan a = false := by
  cases a <;> rfl

theorem leB_nan_right (a : PFloat) : leB a nan = false := by
  cases a <;> rfl

theorem replaceZero_of_ne (v : PFloat) (h : v ≠ fin 0) :
    replaceZero v = v := by
  cases v with
  | fin q =>
    have : q ≠ 0 := fun hq => h (by rw [hq])
    simp [replaceZero, this]
  | nan => rfl
  | inf => rfl
  | ninf => rfl

theorem bb_width_getD (s : List PFloat) (n : Nat) (k : ℚ) (i : Nat)
    (hi : i < s.length) :
    (Indicators.bb_width s n k).getD i nan =
      div (sub (add (rollAt n n meanP s i) (mul (fin k) (rollAt n n popStdP s i)))
               (sub (rollAt n n meanP s i) (mul (fin k) (rollAt n n popStdP s i))))
          (rollAt n n meanP s i) := by
  unfold Indicators.bb_width
  have l1 : (roll n n meanP s).length = s.length := roll_length _ _ _ _
  have l2 : ((roll n n popStdP s).map (mul (fin k))).length = s.length := by
    simp [List.length_map, roll_length]
  have lup : (ew2 add (roll n n meanP s)
      ((roll n n popStdP s).map (mul (fin k)))).length = s.length := by
    simp [ew2_length, l1, l2]
  have llo : (ew2 sub (roll n n meanP s)
      ((roll n n popStdP s).map (mul (fin k)))).length = s.length := by
    simp [ew2_length, l1, l2]
  have lnum : (ew2 sub
      (ew2 add (roll n n meanP s) ((roll n n popStdP s).map (mul (fin k))))
      (ew2 sub (roll n n meanP s) ((roll n n popStdP s).map (mul (fin k))))).length
      = s.length := by
    simp [ew2_length, lup, llo]
  rw [ew2_getD _ _ _ _ (by rw [lnum, l1, Nat.min_self]; exact hi),
      ew2_getD _ _ _ _ (by rw [lup, llo, Nat.min_self]; exact hi),
      ew2_getD _ _ _ _ (by rw [l1, l2, Nat.min_self]; exact hi),
      ew2_getD _ _ _ _ (by rw [l1, l2, Nat.min_self]; exact hi),
      getD_map _ _ _ (by rw [roll_length]; exact hi),
      roll_getD _ _ _ _ _ hi, roll_getD _ _ _ _ _ hi]

theorem bbWidthSeries_getD (s : List PFloat) (n : Nat) (k : ℚ) (i : Nat)
    (hi : i < s.length) :
    (PatternFilters.bbWidthSeries s n k).getD i nan =
      div (sub (add (rollAt n n meanP s i) (mul (fin k) (rollAt n n popStdP s i)))
               (sub (rollAt n n meanP s i) (mul (fin k) (rollAt n n popStdP s i))))
          (replaceZero (rollAt n n meanP s i)) := by
  unfold PatternFilters.bbWidthSeries
  have l1 : (roll n n meanP s).length = s.length := roll_length _ _ _ _
  have l1r : ((roll n n meanP s).map replaceZero).length = s.length := by
    simp [List.length_map, roll_length]
  have l2 : ((roll n n popStdP s).map (mul (fin k))).length = s.length := by
    simp [List.length_map, roll_length]
  have lup : (ew2 add (roll n n meanP s)
      ((roll n n popStdP s).map (mul (fin k)))).length = s.length := by
    simp [ew2_length, l1, l2]
  have llo : (ew2 sub (roll n n meanP s)
      ((roll n n popStdP s).map (mul (fin k)))).length = s.length := by
    simp [ew2_length, l1, l2]
  have lnum : (ew2 sub
      (ew2 add (roll n n meanP s) ((roll n n popStdP s).map (mul (fin k))))
      (ew2 sub (roll n n meanP s) ((roll n n popStdP s).map (mul (fin k))))).length
      = s.length := by
    simp [ew2_length, lup, llo]
  rw [ew2_getD _ _ _ _ (by rw [lnum, l1r, Nat.min_self]; exact hi),
      ew2_getD _ _ _ _ (by rw [lup, llo, Nat.min_self]; exact hi),
      ew2_getD _ _ _ _ (by rw [l1, l2, Nat.min_self]; exact hi),
      ew2_getD _ _ _ _ (by rw [l1, l2, Nat.min_self]; exact hi),
      getD_map _ _ _ (by rw [roll_length]; exact hi),
      getD_map _ _ _ (by rw [roll_length]; exact hi),
      roll_getD _ _ _ _ _ hi, roll_getD _ _ _ _ _ hi]

theorem bb_width_length (s : List PFloat) (n : Nat) (k : ℚ) :
    (Indicators.bb_width s n k).length = s.length := by
  simp [Indicators.bb_width, ew2_length, roll_length, List.length_map]

theorem bbWidthSeries_length (s : List PFloat) (n : Nat) (k : ℚ) :
    (PatternFilters.bbWidthSeries s n k).length = s.length := by
  simp [PatternFilters.bbWidthSeries, ew2_length, roll_length, List.length_map]

theorem add_nan_left (b : PFloat) : add nan b = nan := by
  cases b <;> rfl

theorem sub_nan_left (b : PFloat) : sub nan b = nan := by
  cases b <;> rfl

/-- C6: Bollinger-band width is ((mean + k std) - (mean - k std)) / mean with
rolling population standard deviation and strict n-bar warm-up in both
implementations, and the two agree wherever the rolling mean is nonzero;
but on a zero rolling mean only the pattern_filters variant (which replaces
zero mids by NaN) yields an undefined value — src.features.indicators.bb_width
divides by the zero mean and yields a positive infinity whenever the rolling
standard deviation is positive, contradicting the never-infinite clause. -/
theorem bb_width_spec :
    (∀ (s : List PFloat) (n : Nat) (k : ℚ) (i : Nat), i + 1 < n →
      (Indicators.bb_width s n k).getD i nan = nan ∧
      (PatternFilters.bbWidthSeries s n k).getD i nan = nan) ∧
    (∀ (s : List PFloat) (n : Nat) (k : ℚ) (i : Nat), i < s.length →
      rollAt n n meanP s i ≠ fin 0 →
      (PatternFilters.bbWidthSeries s n k).getD i nan =
        (Indicators.bb_width s n k).getD i nan) ∧
    (∀ (s : List PFloat) (n : Nat) (k : ℚ) (i : Nat), i < s.length →
      rollAt n n meanP s i = fin 0 →
      (PatternFilters.bbWidthSeries s n k).getD i nan = nan) ∧
    (∀ (s : List PFloat) (n : Nat) (k : ℚ) (i : Nat) (q : ℚ), i < s.length →
      rollAt n n meanP s i = fin 0 →
      rollAt n n popStdP s i = fin q → 0 < q → 0 < k →
      (Indicators.bb_width s n k).getD i nan = inf) := by
  refine ⟨?_, ?_, ?_, ?_⟩
  · intro s n k i h
    by_cases hi : i < s.length
    · have hm : rollAt n n meanP s i = nan := rollAt_warmup _ _ _ _ _ h
      constructor
      · rw [bb_width_getD _ _ _ _ hi, hm]
        simp [add_nan_left, sub_nan_left, nan_div]
      · rw [bbWidthSeries_getD _ _ _ _ hi, hm]
        simp [add_nan_left, sub_nan_left, nan_div]
    · have hle : s.length ≤ i := Nat.le_of_not_lt hi
      constructor
      · exact getD_of_length_le _ _ _ (by rw [bb_width_length]; exact hle)
      · exact getD_of_length_le _ _ _ (by rw [bbWidthSeries_length]; exact hle)
  · intro s n k i hi hne
    rw [bb_width_getD _ _ _ _ hi, bbWidthSeries_getD _ _ _ _ hi,
      replaceZero_of_ne _ hne]
  · intro s n k i hi hm
    rw [bbWidthSeries_getD _ _ _ _ hi, hm]
    have : replaceZero (fin 0) = nan := by simp [replaceZero]
    rw [this, div_nan_right]
  · intro s n k i q hi hm hs hq hk
    rw [bb_width_getD _ _ _ _ hi, hm, hs]
    have hX : (0 : ℚ) < qadd (qadd 0 (qmul k q)) (qneg (qadd 0 (qneg (qmul k q)))) := by
      simp only [qadd_eq, qneg_eq, qmul_eq]
      nlinarith
    simp only [PFloat.mul, PFloat.add, PFloat.sub, PFloat.neg, PFloat.div]
    simp [hX]

/-- C6 counterexample: on the series 1, -1 with window 2 the rolling mean is
0 and the rolling population standard deviation is 1, and
src.features.indicators.bb_width returns positive infinity, not an
undefined value. -/
theorem bb_width_inf_cex :
    Indicators.bb_width [fin 1, fin (-1)] 2 2 = [nan, inf] := by decide

/-- C6 witness: the strict warm-up conjunct instantiated at a one-element
series with window 2. -/
theorem bb_width_spec_w :
    (Indicators.bb_width [fin 5] 2 2).getD 0 nan = nan ∧
    (PatternFilters.bbWidthSeries [fin 5] 2 2).getD 0 nan = nan :=
  bb_width_spec.1 [fin 5] 2 2 0 (by decide)

/-- C1: backtest.pattern_filters.pattern_gate is total — for every
column-resolved bar table (any row count, any numeric contents including
NaN) it returns a result record.  backtest.pattern_gate.pattern_gate,
however, never returns: its decision line reads the undefined name
GATE_FORCE_FALSE and raises NameError on every nonempty input (and
IndexError on an empty one), contradicting the claim and the spec's
totality contract; the spec itself flags the undefined toggle as a latent
defect, so the code, not the claim, is wrong. -/
theorem gate_totality_status :
    (∀ (bars : List Bar) (hv : Bool) (bb_n : Nat) (bb_k : ℚ) (atr_n pw : Nat),
      ∃ out, PatternFilters.pattern_gate bars hv bb_n bb_k atr_n pw = .ok out) ∧
    (∀ (bars : List Bar) (p1 p2 p3 : ℚ) (n : Nat), bars ≠ [] →
      BacktestGate.pattern_gate bars p1 p2 p3 n =
        .error "NameError: name GATE_FORCE_FALSE is not defined") := by
  constructor
  · intro bars hv bb_n bb_k atr_n pw
    unfold PatternFilters.pattern_gate
    split
    · exact ⟨_, rfl⟩
    · exact ⟨_, rfl⟩
  · intro bars p1 p2 p3 n hne
    match bars with
    | [] => exact absurd rfl hne
    | b :: bs => rfl

/-- C1 witness: both halves at a one-bar table. -/
theorem gate_totality_status_w :
    (∃ out, PatternFilters.pattern_gate (finBars dataOneBar) true 20 2 14 252
      = .ok out) ∧
    BacktestGate.pattern_gate (finBars dataOneBar) 15 (mkRat 3 50)
      (mkRat 13 20) 20 =
      .error "NameError: name GATE_FORCE_FALSE is not defined" :=
  ⟨gate_totality_status.1 (finBars dataOneBar) true 20 2 14 252,
   gate_totality_status.2 (finBars dataOneBar) 15 (mkRat 3 50) (mkRat 13 20)
     20 (by decide)⟩

/-- C2 (amended): backtest.pattern_filters.pattern_gate returns the record
ok=false, reason="insufficient_rows" (with the row count) for every input
with fewer than max(band_period, atr_period) + 2 rows; the
backtest.pattern_gate variant performs no such row-count check. -/
theorem pf_insufficient_rows (bars : List Bar) (hv : Bool) (bb_n : Nat)
    (bb_k : ℚ) (atr_n pw : Nat) (h : bars.length < max bb_n atr_n + 2) :
    PatternFilters.pattern_gate bars hv bb_n bb_k atr_n pw =
      .ok (.insufficient false "insufficient_rows" bars.length) := by
  unfold PatternFilters.pattern_gate
  rw [if_pos h]

/-- C2 witness: a three-row table is below the default 22-row minimum. -/
theorem pf_insufficient_rows_w :
    (finBars dataShort3).length < max 20 14 + 2 ∧
    PatternFilters.pattern_gate (finBars dataShort3) true 20 2 14 252 =
      .ok (.insufficient false "insufficient_rows" (finBars dataShort3).length) :=
  ⟨by decide,
   pf_insufficient_rows (finBars dataShort3) true 20 2 14 252 (by decide)⟩

/-- C2 counterexample: on a three-row table (fewer than
max(band_period, atr_period)+2 rows) the backtest.pattern_gate variant does
not return an ok=false, reason="insufficient_rows" record: it raises. -/
theorem bt_no_insufficient_rows_cex :
    BacktestGate.pattern_gate (finBars dataShort3) 15 (mkRat 3 50)
      (mkRat 13 20) 20 =
      .error "NameError: name GATE_FORCE_FALSE is not defined" := rfl

/-- C3 (amended): in backtest.pattern_filters.pattern_gate the final
decision is candidate_ok = is_squeeze AND (hh20-breakout OR hh50-breakout);
no bullish-candle factor participates.  (The backtest.pattern_gate variant
is written to compute consolidating AND breakout AND bullish but raises
NameError before returning.) -/
theorem pf_candidate_formula (bars : List Bar) (hv : Bool) (bb_n : Nat)
    (bb_k : ℚ) (atr_n pw : Nat) (h : ¬ bars.length < max bb_n atr_n + 2) :
    ∃ g, PatternFilters.pattern_gate bars hv bb_n bb_k atr_n pw =
        .ok (.full g) ∧
      g.candidate_ok = (g.is_squeeze && (g.breakout_hh20 || g.breakout_hh50)) := by
  refine ⟨PatternFilters.gateFull bars hv bb_n bb_k atr_n pw, ?_, ?_⟩
  · unfold PatternFilters.pattern_gate
    rw [if_neg h]
  · simp only [PatternFilters.gateFull]

/-- C3 witness: the candidate formula at a 22-row table. -/
theorem pf_candidate_formula_w :
    ∃ g, PatternFilters.pattern_gate (finBars dataFlat22) true 20 2 14 252 =
        .ok (.full g) ∧
      g.candidate_ok = (g.is_squeeze && (g.breakout_hh20 || g.breakout_hh50)) :=
  pf_candidate_formula (finBars dataFlat22) true 20 2 14 252 (by decide)

/-- C3 counterexample: on dataSqueezeBreakout the gate reports
candidate_ok = true although no bullish candlestick fires on the evaluation
bar, so the claimed formula squeeze AND breakout AND bullish (which would
give false) does not describe candidate_ok. -/
theorem pf_candidate_without_bullish_cex :
    PatternFilters.outCandidateOk
      (PatternFilters.pattern_gate (finBars dataSqueezeBreakout) true 20 2 14
        252) = some true ∧
    (Candlesticks.bullish_on_bar (finBars dataSqueezeBreakout)).getD 59 true
      = false := by
  constructor
  · decide
  · decide

/-- C10: beta_filter and delta_filter pass whenever the value is missing
(None) or NaN; otherwise beta_filter is beta_min ≤ beta ≤ beta_max and
delta_filter is delta ≥ delta_min (as float comparisons, so an infinite
beta fails the range check just as in the source). -/
theorem volatility_filters_spec :
    (∀ bmin bmax : ℚ, Volatility.beta_filter none bmin bmax = true) ∧
    (∀ bmin bmax : ℚ, Volatility.beta_filter (some nan) bmin bmax = true) ∧
    (∀ (v : PFloat) (bmin bmax : ℚ), v.isNan = false →
      Volatility.beta_filter (some v) bmin bmax =
        (leB (fin bmin) v && leB v (fin bmax))) ∧
    (∀ q bmin bmax : ℚ, Volatility.beta_filter (some (fin q)) bmin bmax =
      decide (bmin ≤ q ∧ q ≤ bmax)) ∧
    (∀ dmin : ℚ, Volatility.delta_filter none dmin = true) ∧
    (∀ dmin : ℚ, Volatility.delta_filter (some nan) dmin = true) ∧
    (∀ (v : PFloat) (dmin : ℚ), v.isNan = false →
      Volatility.delta_filter (some v) dmin = geB v (fin dmin)) ∧
    (∀ q dmin : ℚ, Volatility.delta_filter (some (fin q)) dmin =
      decide (dmin ≤ q)) := by
  refine ⟨fun _ _ => rfl, fun _ _ => rfl, ?_, ?_, fun _ => rfl, fun _ => rfl,
    ?_, ?_⟩
  · intro v bmin bmax hv
    cases v <;> simp_all [Volatility.beta_filter, isNan]
  · intro q bmin bmax
    simp [Volatility.beta_filter, isNan, leB, Bool.decide_and]
  · intro v dmin hv
    cases v <;> simp_all [Volatility.delta_filter, isNan]
  · intro q dmin
    simp [Volatility.delta_filter, isNan, geB, leB]

/-- C10 witness: the non-missing characterization at an infinite beta and a
finite delta. -/
theorem volatility_filters_spec_w :
    Volatility.beta_filter (some inf) 1 2 = (leB (fin 1) inf && leB inf (fin 2)) ∧
    Volatility.delta_filter (some (fin 1)) (mkRat 7 10) = decide (mkRat 7 10 ≤ 1) :=
  ⟨volatility_filters_spec.2.2.1 inf 1 2 rfl,
   volatility_filters_spec.2.2.2.2.2.2.2 1 (mkRat 7 10)⟩

/-- C5 (amended): the breakout flags do fail closed — a NaN close or a NaN
rolling-high at a bar makes that bar's breakout flag false — and a
percentile branch whose series has no defined value at all contributes
false to is_squeeze.  But the gate takes each percentile metric through
_last_valid, the last DEFINED value of the series, so a metric undefined at
the evaluation bar falls back to an earlier defined value instead of
forcing its comparison false (see the counterexample). -/
theorem gate_fail_closed_spec :
    (∀ (n : Nat) (highs closes : List PFloat) (i : Nat),
      (closes.getD i nan).isNan = true →
      (PatternFilters.breakoutSeries n highs closes).getD i false = false) ∧
    (∀ (n : Nat) (highs closes : List PFloat) (i : Nat),
      ((PatternFilters.hhSeries n highs).getD i nan).isNan = true →
      (PatternFilters.breakoutSeries n highs closes).getD i false = false) ∧
    (∀ (bars : List Bar) (bb_n : Nat) (bb_k : ℚ) (atr_n pw : Nat),
      PatternFilters.lastValid
        (PatternFilters.bbWidthPctileSeries (closesOf bars) bb_n bb_k pw)
        = none →
      PatternFilters.lastValid
        (PatternFilters.atrPctileSeries (highsOf bars) (lowsOf bars)
          (closesOf bars) atr_n pw) = none →
      PatternFilters.isSqueezeOf bars bb_n bb_k atr_n pw = false) := by
  refine ⟨?_, ?_, ?_⟩
  · intro n highs closes i hnan
    unfold PatternFilters.breakoutSeries
    by_cases hi : i < min closes.length (PatternFilters.hhSeries n highs).length
    · rw [ewB2_getD _ _ _ _ _ hi]
      cases hv : closes.getD i nan with
      | nan => exact ltB_nan_right _
      | inf => rw [hv] at hnan; exact absurd hnan (by simp [isNan])
      | ninf => rw [hv] at hnan; exact absurd hnan (by simp [isNan])
      | fin q => rw [hv] at hnan; exact absurd hnan (by simp [isNan])
    · exact getD_of_length_le _ _ _ (by rw [ewB2_length]; omega)
  · intro n highs closes i hnan
    unfold PatternFilters.breakoutSeries
    by_cases hi : i < min closes.length (PatternFilters.hhSeries n highs).length
    · rw [ewB2_getD _ _ _ _ _ hi]
      cases hv : (PatternFilters.hhSeries n highs).getD i nan with
      | nan => exact ltB_nan_left _
      | inf => rw [hv] at hnan; exact absurd hnan (by simp [isNan])
      | ninf => rw [hv] at hnan; exact absurd hnan (by simp [isNan])
      | fin q => rw [hv] at hnan; exact absurd hnan (by simp [isNan])
    · exact getD_of_length_le _ _ _ (by rw [ewB2_length]; omega)
  · intro bars bb_n bb_k atr_n pw h1 h2
    unfold PatternFilters.isSqueezeOf
    rw [h1, h2]
    rfl

/-- C5 witness: a NaN close fails the breakout flag closed. -/
theorem gate_fail_closed_spec_w :
    (([nan] : List PFloat).getD 0 nan).isNan = true ∧
    (PatternFilters.breakoutSeries 20 [fin 5] [nan]).getD 0 false = false :=
  ⟨by decide, gate_fail_closed_spec.1 20 [fin 5] [nan] 0 (by decide)⟩

/-- C5 counterexample: on dataNanTail the ATR percentile is undefined (NaN)
at the evaluation bar (index 60), yet is_squeeze is true: _last_valid falls
back to the defined percentile of bar 59 (8/47), so the gate does not fail
closed on a metric that is undefined at the evaluation bar. -/
theorem squeeze_not_fail_closed_cex :
    (PatternFilters.atrPctileSeries (highsOf dataNanTail) (lowsOf dataNanTail)
      (closesOf dataNanTail) 14 252).getD 60 nan = nan ∧
    PatternFilters.outIsSqueeze
      (PatternFilters.pattern_gate dataNanTail true 20 2 14 252) = some true := by
  constructor
  · decide
  · decide

theorem trueRangeS_length (highs lows closes : List PFloat) :
    (PatternFilters.trueRangeS highs lows closes).length = closes.length :=
  tabulate_length _ _

theorem atrInd_length (bars : List Bar) (n : Nat) :
    (Indicators.atr bars n).length = bars.length := by
  simp [Indicators.atr, roll_length, trueRangeS_length, closesOf]

theorem sma_length (s : List PFloat) (n : Nat) :
    (Indicators.sma s n).length = s.length := by
  simp [Indicators.sma, roll_length]

theorem tight_score_length (bars : List Bar) :
    (ChartPatterns.tight_score bars).length = bars.length := by
  simp [ChartPatterns.tight_score, ew2_length, roll_length, bb_width_length,
    List.length_map, closesOf]

theorem atr_score_length (bars : List Bar) :
    (ChartPatterns.atr_score bars).length = bars.length := by
  simp [ChartPatterns.atr_score, ewB2_length, roll_length, atrInd_length,
    List.length_map]

theorem band_score_length (bars : List Bar) :
    (ChartPatterns.band_score bars).length = bars.length := by
  simp [ChartPatterns.band_score, ew2_length, roll_length, sma_length,
    List.length_map, closesOf, highsOf, lowsOf]

theorem clip_fillna_bounded (v : PFloat) :
    ∃ q : ℚ, clipP 0 1 (fillna0 v) = fin q ∧ 0 ≤ q ∧ q ≤ 1 := by
  cases v with
  | nan => exact ⟨0, by decide, by norm_num, by norm_num⟩
  | inf => exact ⟨1, by decide, by norm_num, by norm_num⟩
  | ninf => exact ⟨0, by decide, by norm_num, by norm_num⟩
  | fin q =>
    refine ⟨qmin 1 (qmax 0 q), rfl, ?_, ?_⟩
    · rw [qmin_eq, qmax_eq]
      exact le_min (by norm_num) (le_max_left 0 q)
    · rw [qmin_eq]
      exact min_le_left 1 _

/-- C7 (amended): pattern_score always produces a defined value in [0, 1]
for every row of any input (fillna(0) then clip(0,1)); but an undefined
tightness or squeeze component does not merely contribute 0 — it zeroes
the entire row's score (see the counterexample), while an undefined ATR
median comparison alone contributes 0 through the fail-closed comparison. -/
theorem pattern_score_bounded (bars : List Bar) (i : Nat)
    (hi : i < bars.length) :
    ∃ q : ℚ, (ChartPatterns.pattern_score bars).getD i nan = fin q ∧
      0 ≤ q ∧ q ≤ 1 := by
  unfold ChartPatterns.pattern_score
  have lt : ((ChartPatterns.tight_score bars).map (mul (fin (mkRat 1 2)))).length
      = bars.length := by
    simp [List.length_map, tight_score_length]
  have la : ((ChartPatterns.atr_score bars).map (mul (fin (mkRat 3 10)))).length
      = bars.length := by
    simp [List.length_map, atr_score_length]
  have lb : ((ChartPatterns.band_score bars).map (mul (fin (mkRat 1 5)))).length
      = bars.length := by
    simp [List.length_map, band_score_length]
  have lta : (ew2 add
      ((ChartPatterns.tight_score bars).map (mul (fin (mkRat 1 2))))
      ((ChartPatterns.atr_score bars).map (mul (fin (mkRat 3 10))))).length
      = bars.length := by
    rw [ew2_length, lt, la, Nat.min_self]
  have lsc : (ew2 add
      (ew2 add ((ChartPatterns.tight_score bars).map (mul (fin (mkRat 1 2))))
        ((ChartPatterns.atr_score bars).map (mul (fin (mkRat 3 10)))))
      ((ChartPatterns.band_score bars).map (mul (fin (mkRat 1 5))))).length
      = bars.length := by
    rw [ew2_length, lta, lb, Nat.min_self]
  rw [getD_map _ _ _ (by rw [lsc]; exact hi)]
  exact clip_fillna_bounded _

/-- C7 witness: the bound at a one-row table. -/
theorem pattern_score_bounded_w :
    ∃ q : ℚ, (ChartPatterns.pattern_score (finBars dataOneBar)).getD 0 nan
      = fin q ∧ 0 ≤ q ∧ q ≤ 1 :=
  pattern_score_bounded (finBars dataOneBar) 0 (by decide)

/-- C7 counterexample: on seventy constant bars the ATR component is 1 and
the squeeze component is 1 at the last row, but the tightness rank is NaN
(its rolling min/max coincide, 0/0); the claimed reading — undefined inputs
contribute 0 while defined ones contribute normally — would give
0.3 + 0.2 = 0.5, yet the row's score is 0: the NaN wipes the defined
contributions before fillna(0). -/
theorem pattern_score_zeroed_row_cex :
    (ChartPatterns.tight_score (finBars dataConstant70)).getD 69 nan = nan ∧
    (ChartPatterns.atr_score (finBars dataConstant70)).getD 69 nan = fin 1 ∧
    (ChartPatterns.band_score (finBars dataConstant70)).getD 69 nan = fin 1 ∧
    (ChartPatterns.pattern_score (finBars dataConstant70)).getD 69 nan = fin 0 := by
  refine ⟨by decide, by decide, by decide, by decide⟩

/-- C8: bullish_on_bar yields exactly one boolean per input bar; the first
bar is always false; each later bar's flag is the disjunction of the four
sub-patterns; a morning star can never fire before index 2; and the flag at
bar i depends only on the bars at indices i-2..i (no lookahead, no deeper
history). -/
theorem bullish_on_bar_spec (bars : List Bar) :
    ((Candlesticks.bullish_on_bar bars).length = bars.length) ∧
    (∀ d : Bool, bars ≠ [] → (Candlesticks.bullish_on_bar bars).getD 0 d = false) ∧
    (∀ i : Nat, 1 ≤ i → i < bars.length →
      (Candlesticks.bullish_on_bar bars).getD i false =
        (Candlesticks.engulfAt bars i || Candlesticks.hammerAt bars i ||
         Candlesticks.maruAt bars i || Candlesticks.morningAt bars i)) ∧
    (∀ i : Nat, i < 2 → Candlesticks.morningAt bars i = false) ∧
    (∀ (bars' : List Bar) (i : Nat), i < bars.length → i < bars'.length →
      (∀ j : Nat, i - 2 ≤ j → j ≤ i → bars[j]? = bars'[j]?) →
      (Candlesticks.bullish_on_bar bars).getD i false =
        (Candlesticks.bullish_on_bar bars').getD i false) := by
  refine ⟨tabulate_length _ _, ?_, ?_, ?_, ?_⟩
  · intro d hne
    have h0 : 0 < bars.length := List.length_pos.mpr hne
    unfold Candlesticks.bullish_on_bar
    rw [tabulate_getD _ _ _ _ h0]
    rfl
  · intro i h1 hi
    unfold Candlesticks.bullish_on_bar
    rw [tabulate_getD _ _ _ _ hi]
    have : i ≠ 0 := by omega
    rw [if_neg this]
    rfl
  · intro i hi
    unfold Candlesticks.morningAt
    rw [if_neg (by omega)]
  · intro bars' i hi hi' hagree
    unfold Candlesticks.bullish_on_bar
    rw [tabulate_getD _ _ _ _ hi, tabulate_getD _ _ _ _ hi']
    by_cases h0 : i = 0
    · rw [if_pos h0, if_pos h0]
    · rw [if_neg h0, if_neg h0]
      have e0 : bars.getD i Candlesticks.noBar = bars'.getD i Candlesticks.noBar := by
        rw [List.getD_eq_getElem?_getD, List.getD_eq_getElem?_getD,
          hagree i (by omega) (Nat.le_refl i)]
      have e1 : bars.getD (i - 1) Candlesticks.noBar
          = bars'.getD (i - 1) Candlesticks.noBar := by
        rw [List.getD_eq_getElem?_getD, List.getD_eq_getElem?_getD,
          hagree (i - 1) (by omega) (by omega)]
      have e2 : bars.getD (i - 2) Candlesticks.noBar
          = bars'.getD (i - 2) Candlesticks.noBar := by
        rw [List.getD_eq_getElem?_getD, List.getD_eq_getElem?_getD,
          hagree (i - 2) (by omega) (by omega)]
      unfold Candlesticks.bullishBody Candlesticks.engulfAt
        Candlesticks.hammerAt Candlesticks.maruAt Candlesticks.morningAt
      rw [e0, e1, e2]

/-- C8 witness: the decomposition at bar 1 of a three-bar table, and bar 0
of the same table is false. -/
theorem bullish_on_bar_spec_w :
    (Candlesticks.bullish_on_bar (finBars dataDemo3)).getD 0 true = false ∧
    (Candlesticks.bullish_on_bar (finBars dataDemo3)).getD 1 false =
      (Candlesticks.engulfAt (finBars dataDemo3) 1 ||
       Candlesticks.hammerAt (finBars dataDemo3) 1 ||
       Candlesticks.maruAt (finBars dataDemo3) 1 ||
       Candlesticks.morningAt (finBars dataDemo3) 1) :=
  ⟨(bullish_on_bar_spec (finBars dataDemo3)).2.1 true (by decide),
   (bullish_on_bar_spec (finBars dataDemo3)).2.2.1 1 (by decide) (by decide)⟩

theorem minSkipNan_fin (a b : ℚ) :
    minSkipNan [fin a, fin b] = fin (qmin a b) := by
  simp only [minSkipNan, List.filter, isNan, Bool.not_false, List.foldl,
    minPF, leB, qmin]
  split
  · rename_i h
    rw [if_pos (of_decide_eq_true h)]
  · rename_i h
    rw [if_neg (of_decide_eq_false (Bool.of_not_eq_true h))]

theorem maxSkipNan_fin (a b : ℚ) :
    maxSkipNan [fin a, fin b] = fin (qmax a b) := by
  simp only [maxSkipNan, List.filter, isNan, Bool.not_false, List.foldl,
    maxPF, leB, qmax]
  split
  · rename_i h
    rw [if_pos (of_decide_eq_true h)]
  · rename_i h
    rw [if_neg (of_decide_eq_false (Bool.of_not_eq_true h))]

/-- C9 (amended): the candlesticks detector classifies a hammer exactly as
the claim says — lower shadow at least twice the body AND a bullish bar —
but backtest.pattern_gate._hammer uses a different rule: body at most 0.35
of the bar's range, lower shadow at least twice the body (as a ratio, so a
zero body fails), and upper shadow at most the body, with NO bullish
requirement. -/
theorem hammer_detectors_spec :
    (∀ (oq hq lq cq : ℚ) (bars : List Bar) (i : Nat),
      bars.getD i Candlesticks.noBar = ⟨fin oq, fin hq, fin lq, fin cq⟩ →
      Candlesticks.hammerAt bars i =
        decide (2 * |cq - oq| ≤ min oq cq - lq ∧ oq < cq)) ∧
    (∀ oq hq lq cq : ℚ, hq - lq ≠ 0 → cq - oq ≠ 0 →
      BacktestGate.hammerRow (mkRat 35 100) 2 ⟨fin oq, fin hq, fin lq, fin cq⟩ =
        decide (|cq - oq| / (hq - lq) ≤ mkRat 35 100 ∧
          2 ≤ |min oq cq - lq| / |cq - oq| ∧
          |hq - max oq cq| ≤ |cq - oq|)) := by
  constructor
  · intro oq hq lq cq bars i h
    unfold Candlesticks.hammerAt
    rw [h]
    simp only [minSkipNan_fin, PFloat.sub, PFloat.add, PFloat.neg, PFloat.mul,
      PFloat.abs, geB, gtB, leB, ltB]
    simp only [qmul_eq, qabs_eq, qadd_eq, qneg_eq, qmin_eq, ← sub_eq_add_neg,
      Bool.decide_and]
  · intro oq hq lq cq h1 h2
    unfold BacktestGate.hammerRow
    have hrng : qadd hq (qneg lq) ≠ 0 := by
      rw [qadd_eq, qneg_eq, ← sub_eq_add_neg]; exact h1
    have hbody : qabs (qadd cq (qneg oq)) ≠ 0 := by
      rw [qabs_eq, qadd_eq, qneg_eq, ← sub_eq_add_neg]
      exact abs_ne_zero.mpr h2
    simp only [minSkipNan_fin, maxSkipNan_fin, PFloat.sub, PFloat.add,
      PFloat.neg, PFloat.mul, PFloat.abs, replaceZero, geB, gtB, leB, ltB,
      PFloat.div, if_neg hrng, if_neg hbody]
    simp only [qdiv_eq, qmul_eq, qabs_eq, qadd_eq, qneg_eq, qmin_eq, qmax_eq,
      ← sub_eq_add_neg, Bool.decide_and, Bool.and_assoc]

/-- C9 counterexample: the bar open 100, high 100, low 90, close 99 is
bearish (close < open) with lower shadow 9 at least twice its body 1, so
the claimed rule classifies it as not-a-hammer — and the candlesticks
detector indeed says false — but backtest.pattern_gate._hammer says true:
the two detectors disagree and _hammer ignores bullishness. -/
theorem bt_hammer_not_bullish_cex :
    BacktestGate.hammerRow (mkRat 35 100) 2 ⟨fin 100, fin 100, fin 90, fin 99⟩
      = true ∧
    gtB (fin 99) (fin 100) = false ∧
    Candlesticks.hammerAt [⟨fin 100, fin 100, fin 90, fin 99⟩] 0 = false := by
  refine ⟨by decide, by decide, by decide⟩

/-- C9 witness: both characterizations at concrete bars. -/
theorem hammer_detectors_spec_w :
    Candlesticks.hammerAt [⟨fin 1, fin 5, fin 0, fin 2⟩] 0 =
      decide (2 * |(2 : ℚ) - 1| ≤ min (1 : ℚ) 2 - 0 ∧ (1 : ℚ) < 2) ∧
    BacktestGate.hammerRow (mkRat 35 100) 2 ⟨fin 1, fin 5, fin 0, fin 2⟩ =
      decide (|(2 : ℚ) - 1| / ((5 : ℚ) - 0) ≤ mkRat 35 100 ∧
        2 ≤ |min (1 : ℚ) 2 - 0| / |(2 : ℚ) - 1| ∧
        |(5 : ℚ) - max (1 : ℚ) 2| ≤ |(2 : ℚ) - 1|) :=
  ⟨hammer_detectors_spec.1 1 5 0 2 [⟨fin 1, fin 5, fin 0, fin 2⟩] 0 (by decide),
   hammer_detectors_spec.2 1 5 0 2 (by norm_num) (by norm_num)⟩

theorem filter_notNan_map_fin (l : List ℚ) :
    (l.map fin).filter (fun v => !v.isNan) = l.map fin := by
  induction l with
  | nil => rfl
  | cons q t ih => simp [List.filter, isNan, ih]

theorem maxPF_fin (a b : ℚ) : maxPF (fin a) (fin b) = fin (max a b) := by
  simp only [maxPF, leB, max_def]
  split
  · rename_i h
    rw [if_pos (of_decide_eq_true h)]
  · rename_i h
    rw [if_neg (of_decide_eq_false (Bool.of_not_eq_true h))]

theorem foldl_maxPF_fin (l : List ℚ) : ∀ a : ℚ,
    (l.map fin).foldl maxPF (fin a) = fin (l.foldl max a) := by
  induction l with
  | nil => intro a; rfl
  | cons q t ih =>
    intro a
    simp only [List.map, List.foldl, maxPF_fin]
    exact ih (max a q)

theorem maxP_map_fin (q : ℚ) (l : List ℚ) :
    maxP ((q :: l).map fin) = fin (qmaxL (q :: l)) := by
  simp only [List.map, maxP, qmaxL]
  exact foldl_maxPF_fin l q

theorem getD_map_fin (l : List ℚ) (i : Nat) (h : i < l.length)
    (dp : PFloat) (d : ℚ) : (l.map fin).getD i dp = fin (l.getD i d) := by
  simp [List.getD_eq_getElem?_getD, List.getElem?_map,
    List.getElem?_eq_getElem h]

theorem shift1_getD (ys : List PFloat) (i : Nat) (h : i < ys.length) :
    (shift1 ys).getD i nan = if i = 0 then nan else ys.getD (i - 1) nan := by
  match ys, h with
  | y :: t, h =>
    cases i with
    | zero => rfl
    | succ j =>
      simp only [shift1, Nat.succ_ne_zero, if_neg]
      rw [List.getD_eq_getElem?_getD, List.getD_eq_getElem?_getD]
      have hj : j < (y :: t).length - 1 := by
        simp at h
        simp
        omega
      rw [List.dropLast_eq_take, List.getElem?_cons_succ,
        List.getElem?_take_of_lt hj]
      rfl

theorem highsOf_finBars (qs : List QBar) :
    highsOf (finBars qs) = (highsQ qs).map fin := by
  simp only [highsOf, highsQ, finBars, List.map_map]
  exact List.map_congr_left fun a ha => rfl

theorem closesOf_finBars (qs : List QBar) :
    closesOf (finBars qs) = (closesQ qs).map fin := by
  simp only [closesOf, closesQ, finBars, List.map_map]
  exact List.map_congr_left fun a ha => rfl

theorem rollAt_maxP_fin (l : List ℚ) (n i : Nat) (hn : 1 ≤ n)
    (hi : i < l.length) :
    rollAt n n maxP (l.map fin) i =
      if n ≤ i + 1 then fin (qmaxL ((l.take (i + 1)).drop (i + 1 - n)))
      else nan := by
  unfold rollAt windowSlice
  rw [← List.map_take, ← List.map_drop, filter_notNan_map_fin,
    List.length_map]
  have hlen : ((l.take (i + 1)).drop (i + 1 - n)).length = min n (i + 1) := by
    simp only [List.length_drop, List.length_take]
    omega
  by_cases hc : n ≤ i + 1
  · have hlen' : ((l.take (i + 1)).drop (i + 1 - n)).length = n := by
      rw [hlen]; omega
    rw [if_pos hc, if_neg (by omega)]
    match hw : (l.take (i + 1)).drop (i + 1 - n), hlen' with
    | [], h => simp at h; omega
    | q :: t, _ => exact maxP_map_fin q t
  · rw [if_neg hc, if_pos (by omega)]

theorem rollAt_maxP_shift1_fin (l : List ℚ) (n i : Nat) (hn : 1 ≤ n)
    (hi : i < l.length) :
    rollAt n n maxP (shift1 (l.map fin)) i =
      if n ≤ i then fin (qmaxL ((l.take i).drop (i - n))) else nan := by
  match l, hi with
  | q0 :: t, hi =>
    have hshift : shift1 ((q0 :: t).map fin) =
        nan :: ((q0 :: t).dropLast).map fin := by
      simp [shift1, List.map_dropLast]
    have htake : ((q0 :: t).dropLast).take i = (q0 :: t).take i := by
      rw [List.dropLast_eq_take, List.take_take]
      have : min i ((q0 :: t).length - 1) = i := by
        simp at hi
        simp
        omega
      rw [this]
    unfold rollAt windowSlice
    rw [hshift, List.take_succ_cons, ← List.map_take, htake]
    by_cases hc : n ≤ i
    · have hstep : i + 1 - n = (i - n) + 1 := by omega
      rw [hstep, List.drop_succ_cons, ← List.map_drop, filter_notNan_map_fin,
        List.length_map]
      have hlen' : (((q0 :: t).take i).drop (i - n)).length = n := by
        rw [List.length_drop, List.length_take,
          Nat.min_eq_left (Nat.le_of_lt hi)]
        omega
      rw [if_pos hc, if_neg (by omega)]
      match hw : ((q0 :: t).take i).drop (i - n), hlen' with
      | [], h => simp at h; omega
      | q :: s, _ => exact maxP_map_fin q s
    · have hzero : i + 1 - n = 0 := by omega
      rw [hzero, List.drop_zero, if_neg hc]
      have hfil : (nan :: ((q0 :: t).take i).map fin).filter
          (fun v => !v.isNan) = ((q0 :: t).take i).map fin := by
        simp only [List.filter, isNan, Bool.not_true]
        exact filter_notNan_map_fin _
      rw [hfil, List.length_map]
      have : ((q0 :: t).take i).length < n := by
        simp only [List.length_take]
        omega
      rw [if_pos this]

/-- C4 (amended): on fully-defined data the pattern_filters breakout flag at
bar i is true iff close i is strictly greater than the max of HIGH over the
N bars immediately before i (false when fewer than N prior bars exist),
exactly as the claim says; but the backtest.pattern_gate breakout flag
compares close i with the rolling max of CLOSE over the prior N bars, not
of high. -/
theorem breakout_flags_spec (qs : List QBar) (N i : Nat) (hN : 1 ≤ N)
    (hi : i < qs.length) :
    ((PatternFilters.breakoutSeries N (highsOf (finBars qs))
        (closesOf (finBars qs))).getD i false
      = specBreakout (highsQ qs) (closesQ qs) N i) ∧
    ((BacktestGate.breakout (finBars qs) N).getD i false
      = specBreakout (closesQ qs) (closesQ qs) N i) := by
  have lh : (highsQ qs).length = qs.length := List.length_map _ _
  have lc : (closesQ qs).length = qs.length := List.length_map _ _
  constructor
  · unfold PatternFilters.breakoutSeries
    rw [highsOf_finBars, closesOf_finBars]
    have l1 : ((closesQ qs).map fin).length = qs.length := by
      rw [List.length_map, lc]
    have l2 : (PatternFilters.hhSeries N ((highsQ qs).map fin)).length
        = qs.length := by
      unfold PatternFilters.hhSeries
      rw [roll_length, shift1_length, List.length_map, lh]
    rw [ewB2_getD _ _ _ _ _ (by rw [l1, l2, Nat.min_self]; exact hi)]
    rw [getD_map_fin _ _ (by rw [lc]; exact hi) nan 0]
    unfold PatternFilters.hhSeries
    rw [roll_getD _ _ _ _ _ (by rw [shift1_length, List.length_map, lh]; exact hi)]
    rw [rollAt_maxP_shift1_fin _ _ _ hN (by rw [lh]; exact hi)]
    unfold specBreakout
    by_cases hc : N ≤ i
    · rw [if_pos hc, if_pos hc]
      have hprior : ((highsQ qs).take i).drop (i - N) ≠ [] := by
        intro hnil
        have hlen0 := congrArg List.length hnil
        rw [List.length_drop, List.length_take,
          Nat.min_eq_left (Nat.le_of_lt (lh ▸ hi))] at hlen0
        simp at hlen0
        omega
      rw [if_neg hprior]
      rfl
    · rw [if_neg hc, if_neg hc]
      rfl
  · unfold BacktestGate.breakout
    rw [closesOf_finBars]
    have l1 : ((closesQ qs).map fin).length = qs.length := by
      rw [List.length_map, lc]
    have l2 : (shift1 (roll N N maxP ((closesQ qs).map fin))).length
        = qs.length := by
      rw [shift1_length, roll_length, List.length_map, lc]
    rw [ewB2_getD _ _ _ _ _ (by rw [l1, l2, Nat.min_self]; exact hi)]
    rw [getD_map_fin _ _ (by rw [lc]; exact hi) nan 0]
    rw [shift1_getD _ _ (by rw [roll_length, List.length_map, lc]; exact hi)]
    unfold specBreakout
    by_cases h0 : i = 0
    · rw [if_pos h0, if_neg (by omega)]
      rfl
    · rw [if_neg h0]
      rw [roll_getD _ _ _ _ _ (by rw [List.length_map, lc]; omega)]
      rw [rollAt_maxP_fin _ _ _ hN (by rw [lc]; omega)]
      have hconv : i - 1 + 1 = i := by omega
      rw [hconv]
      by_cases hc : N ≤ i
      · rw [if_pos hc, if_pos hc]
        have hprior : ((closesQ qs).take i).drop (i - N) ≠ [] := by
          intro hnil
          have hlen0 := congrArg List.length hnil
          rw [List.length_drop, List.length_take,
            Nat.min_eq_left (Nat.le_of_lt (lc ▸ hi))] at hlen0
          simp at hlen0
          omega
        rw [if_neg hprior]
        rfl
      · rw [if_neg hc, if_neg hc]
        rfl

/-- C4 counterexample: on dataHighAboveClose bar 20 closes at 1010, above
every prior close (1000) but far below every prior high (2000).  The spec
predicate (close above the prior-20-bar HIGH max) is false, yet the
backtest.pattern_gate breakout flag is true because it tracks prior closes. -/
theorem bt_breakout_close_not_high_cex :
    (BacktestGate.breakout (finBars dataHighAboveClose) 20).getD 20 false
      = true ∧
    specBreakout (highsQ dataHighAboveClose) (closesQ dataHighAboveClose)
      20 20 = false := by
  refine ⟨by decide, by decide⟩

/-- C4 witness: both characterizations at bar 20 of dataHighAboveClose. -/
theorem breakout_flags_spec_w :
    ((PatternFilters.breakoutSeries 20 (highsOf (finBars dataHighAboveClose))
        (closesOf (finBars dataHighAboveClose))).getD 20 false
      = specBreakout (highsQ dataHighAboveClose) (closesQ dataHighAboveClose)
          20 20) ∧
    ((BacktestGate.breakout (finBars dataHighAboveClose) 20).getD 20 false
      = specBreakout (closesQ dataHighAboveClose) (closesQ dataHighAboveClose)
          20 20) :=
  breakout_flags_spec dataHighAboveClose 20 20 (by decide) (by decide)
